import Mathlib

/-!
Verification of the core loader / preloader / synchronization / adaptive
quality logic of the bilibili-player repository, shallowly embedded from the
JavaScript sources (`multi-thread-loader.js`, `preloader.js`, `player.js`,
`adaptive-quality.js`).  Byte buffers are lists of naturals, JS numbers that
hold media times or bitrates are rationals, and the single-threaded event
loop is modelled by explicit state-transition functions; `setTimeout`
callbacks (retry timers, the completion monitor, the cool-down timer) appear
as separate transition events that may be delivered after other transitions.
-/

namespace BiliPlayer

/-- A planned byte-range segment as produced by
`MultiThreadLoader.calculateSegments` (JS fields `id`, `start`, `end`,
`size`; `end` is a Lean keyword, rendered `endByte`). -/
structure PlanSeg where
  id : String
  start : Nat
  endByte : Nat
  size : Nat
deriving DecidableEq, Repr

/-- `MultiThreadLoader.calculateSegments(totalSize)`: split `[0, totalSize)`
into `ceil(totalSize / segmentSize)` ranges of `segmentSize` bytes each, the
last one truncated at `totalSize - 1`. -/
def calculateSegments (totalSize segmentSize : Nat) : List PlanSeg :=
  (List.range ((totalSize + segmentSize - 1) / segmentSize)).map fun i =>
    let start := i * segmentSize
    let e := min (start + segmentSize - 1) (totalSize - 1)
    { id := "segment_" ++ toString i, start := start, endByte := e,
      size := e - start + 1 }

/-- An entry value of `state.downloadedSegments` (JS `{data, range, size,
timestamp}`; the timestamp plays no role in merging and is omitted). -/
structure DlSeg where
  rangeStart : Nat
  rangeEnd : Nat
  size : Nat
  data : List Nat
deriving DecidableEq, Repr

/-- The comparator used by `mergeSegments` (`aStart - bStart`): ascending
`range.start`. -/
abbrev byStart (a b : String × DlSeg) : Prop :=
  a.2.rangeStart ≤ b.2.rangeStart

instance byStart_decidable : DecidableRel byStart :=
  fun a b => Nat.decLe a.2.rangeStart b.2.rangeStart

instance byStart_total : IsTotal (String × DlSeg) byStart :=
  ⟨fun a b => Nat.le_total a.2.rangeStart b.2.rangeStart⟩

instance byStart_trans : IsTrans (String × DlSeg) byStart :=
  ⟨fun _ _ _ => Nat.le_trans⟩

/-- The strict version of `byStart`, used to characterise determinacy of the
sort. -/
abbrev byStartLt (a b : String × DlSeg) : Prop :=
  a.2.rangeStart < b.2.rangeStart

instance byStartLt_antisymm : IsAntisymm (String × DlSeg) byStartLt :=
  ⟨fun _ _ hab hba => absurd hab (Nat.lt_asymm hba)⟩

/-- `mergedView.set(segmentView, offset)`: overwrite `d.length` bytes of
`buf` starting at `off`. -/
def writeBytes (buf : List Nat) (off : Nat) (d : List Nat) : List Nat :=
  buf.take off ++ d ++ buf.drop (off + d.length)

/-- `MultiThreadLoader.mergeSegments`: sort the downloaded segments by
ascending `range.start` (JS `Array.prototype.sort` is stable, as is insertion
sort), allocate a buffer of the summed sizes and copy each segment's data at
the running offset. -/
def mergeSegments (dl : List (String × DlSeg)) : List Nat :=
  let sorted := List.insertionSort byStart dl
  let totalSize := (sorted.map (fun e => e.2.size)).sum
  let init : List Nat := List.replicate totalSize 0
  (sorted.foldl
    (fun acc e => (writeBytes acc.1 acc.2 e.2.data, acc.2 + e.2.size))
    (init, 0)).1

theorem writeBytes_length (buf : List Nat) (off : Nat) (d : List Nat)
    (h : off + d.length ≤ buf.length) :
    (writeBytes buf off d).length = buf.length := by
  simp only [writeBytes, List.length_append, List.length_take,
    List.length_drop]
  omega

/-- Copying the segments of a sorted list one after another into a buffer of
exactly the summed sizes reproduces the concatenation of their data. -/
theorem foldl_writeBytes (l : List (String × DlSeg)) :
    ∀ (buf : List Nat) (off : Nat),
      (∀ e ∈ l, e.2.data.length = e.2.size) →
      buf.length = off + (l.map (fun e => e.2.size)).sum →
      (l.foldl
        (fun acc e => (writeBytes acc.1 acc.2 e.2.data, acc.2 + e.2.size))
        (buf, off)).1
        = buf.take off ++ (l.map (fun e => e.2.data)).flatten := by
  induction l with
  | nil =>
    intro buf off _ hbuf
    simp only [List.map_nil, List.sum_nil, Nat.add_zero] at hbuf
    simp [List.take_of_length_le (Nat.le_of_eq hbuf)]
  | cons e l ih =>
    intro buf off hlen hbuf
    have hd : e.2.data.length = e.2.size := hlen e (List.mem_cons_self e l)
    have hrest : ∀ x ∈ l, x.2.data.length = x.2.size :=
      fun x hx => hlen x (List.mem_cons_of_mem e hx)
    simp only [List.map_cons, List.sum_cons] at hbuf
    have hfit : off + e.2.data.length ≤ buf.length := by omega
    have hbuf' : (writeBytes buf off e.2.data).length
        = (off + e.2.size) + (l.map (fun x => x.2.size)).sum := by
      rw [writeBytes_length buf off e.2.data hfit]; omega
    have step := ih (writeBytes buf off e.2.data) (off + e.2.size) hrest hbuf'
    simp only [List.foldl_cons] at *
    rw [step]
    have htake_buf : (buf.take off).length = off := by
      simp only [List.length_take]; omega
    have hlen2 : (buf.take off ++ e.2.data).length = off + e.2.size := by
      simp only [List.length_append, htake_buf, hd]
    have hkey : (writeBytes buf off e.2.data).take (off + e.2.size)
        = buf.take off ++ e.2.data := by
      simp only [writeBytes]
      rw [show buf.take off ++ e.2.data ++ buf.drop (off + e.2.data.length)
            = (buf.take off ++ e.2.data) ++ buf.drop (off + e.2.data.length) by
          simp [List.append_assoc]]
      rw [List.take_append_eq_append_take, hlen2, Nat.sub_self, List.take_zero,
        List.append_nil, List.take_of_length_le (Nat.le_of_eq hlen2)]
    rw [hkey]
    simp [List.append_assoc]

/-- Sorting by ascending start offset is insensitive to the arrival order:
any permutation of a list whose starts are strictly increasing sorts back to
that list. -/
theorem insertionSort_byStart_eq (dl base : List (String × DlSeg))
    (hperm : dl.Perm base)
    (hsorted : base.Pairwise byStartLt) :
    List.insertionSort byStart dl = base := by
  have h1 : (List.insertionSort byStart dl).Perm base :=
    (List.perm_insertionSort byStart dl).trans hperm
  have h2 : List.Sorted byStart (List.insertionSort byStart dl) :=
    List.sorted_insertionSort byStart dl
  have hpw : List.Pairwise (fun x y : Nat => x < y)
      (base.map (fun e => e.2.rangeStart)) :=
    List.Pairwise.map (fun e : String × DlSeg => e.2.rangeStart)
      (fun _ _ h => h) hsorted
  have hnodup : (base.map (fun e => e.2.rangeStart)).Nodup :=
    hpw.imp (fun h => Nat.ne_of_lt h)
  have hnodup' : ((List.insertionSort byStart dl).map
      (fun e => e.2.rangeStart)).Nodup :=
    ((h1.map (fun e => e.2.rangeStart)).nodup_iff).mpr hnodup
  have hle : List.Sorted (fun x y : Nat => x ≤ y)
      ((List.insertionSort byStart dl).map (fun e => e.2.rangeStart)) :=
    List.pairwise_map.mpr h2
  have hlt := hle.lt_of_le hnodup'
  have h2' : List.Pairwise (fun a b : String × DlSeg =>
      a.2.rangeStart < b.2.rangeStart) (List.insertionSort byStart dl) :=
    List.pairwise_map.mp hlt
  exact List.eq_of_perm_of_sorted h1 h2' hsorted

/-- The number of planned segments, `Math.ceil(totalSize / segmentSize)`. -/
def segmentCount (totalSize segmentSize : Nat) : Nat :=
  (totalSize + segmentSize - 1) / segmentSize

theorem calculateSegments_length (t s : Nat) :
    (calculateSegments t s).length = segmentCount t s := by
  simp [calculateSegments, segmentCount]

theorem segmentCount_succ (t' s : Nat) (hs : 0 < s) :
    segmentCount (t' + 1) s = t' / s + 1 := by
  simp only [segmentCount]
  rw [show t' + 1 + s - 1 = t' + s by omega, Nat.add_div_right t' hs]

theorem total_le_count_mul (t s : Nat) (hs : 0 < s) :
    t ≤ segmentCount t s * s := by
  cases t with
  | zero => exact Nat.zero_le _
  | succ t' =>
    have h1 := Nat.div_add_mod t' s
    rw [Nat.mul_comm] at h1
    have h2 := Nat.mod_lt t' hs
    rw [segmentCount_succ t' s hs, Nat.add_mul, Nat.one_mul]
    omega

theorem start_lt_total (t s i : Nat) (hs : 0 < s) (hi : i < segmentCount t s) :
    i * s < t := by
  cases t with
  | zero =>
    exfalso
    have h0 : segmentCount 0 s = 0 := by
      simp only [segmentCount]
      exact Nat.div_eq_of_lt (by omega)
    omega
  | succ t' =>
    rw [segmentCount_succ t' s hs] at hi
    have hi' : i ≤ t' / s := by omega
    have h1 : i * s ≤ t' / s * s := Nat.mul_le_mul_right s hi'
    have h2 : t' / s * s ≤ t' := Nat.div_mul_le_self t' s
    omega

theorem calculateSegments_getElem (t s i : Nat)
    (h : i < (calculateSegments t s).length) :
    (calculateSegments t s)[i] =
      { id := "segment_" ++ toString i, start := i * s,
        endByte := min (i * s + s - 1) (t - 1),
        size := min (i * s + s - 1) (t - 1) - i * s + 1 } := by
  simp [calculateSegments]

theorem sum_map_range_sub (f : Nat → Nat) (hf : Monotone f) (n : Nat) :
    ((List.range n).map (fun i => f (i + 1) - f i)).sum = f n - f 0 := by
  induction n with
  | zero => simp
  | succ n ih =>
    rw [List.range_succ, List.map_append, List.sum_append, ih]
    simp only [List.map_cons, List.map_nil, List.sum_cons, List.sum_nil]
    have h1 : f 0 ≤ f n := hf (Nat.zero_le n)
    have h2 : f n ≤ f (n + 1) := hf (Nat.le_succ n)
    omega

theorem sum_sizes (t s : Nat) (hs : 0 < s) :
    ((calculateSegments t s).map (fun p => p.size)).sum = t := by
  have hmap : (calculateSegments t s).map (fun p => p.size)
      = (List.range (segmentCount t s)).map
          (fun i => min ((i + 1) * s) t - min (i * s) t) := by
    simp only [calculateSegments, segmentCount, List.map_map]
    refine List.map_congr_left ?_
    intro i hi
    have hi' : i < segmentCount t s := by
      simpa [segmentCount] using List.mem_range.mp hi
    have hlt := start_lt_total t s i hs hi'
    simp only [Function.comp]
    rw [Nat.succ_mul]
    omega
  have hmono : Monotone (fun j => min (j * s) t) := by
    intro a b hab
    exact min_le_min (Nat.mul_le_mul_right s hab) le_rfl
  rw [hmap, sum_map_range_sub (fun j => min (j * s) t) hmono]
  have h1 : min (segmentCount t s * s) t = t :=
    min_eq_right (total_le_count_mul t s hs)
  simp [h1]

theorem calculateSegments_pairwise (t s : Nat) (hs : 0 < s) :
    (calculateSegments t s).Pairwise (fun a b => a.start < b.start) := by
  simp only [calculateSegments]
  refine List.Pairwise.map _ ?_ (List.pairwise_lt_range _)
  intro a b hab
  simpa using Nat.mul_lt_mul_of_pos_right hab hs

theorem calculateSegments_chain (t s : Nat) (hs : 0 < s) :
    (calculateSegments t s).Chain' (fun a b => b.start = a.endByte + 1) := by
  rw [List.chain'_iff_get]
  intro i hilen
  have hlen := calculateSegments_length t s
  have hi1 : i < (calculateSegments t s).length := by omega
  have hi2 : i + 1 < (calculateSegments t s).length := by omega
  rw [List.get_eq_getElem, List.get_eq_getElem,
    calculateSegments_getElem t s i hi1, calculateSegments_getElem t s (i + 1) hi2]
  have hlt : (i + 1) * s < t := start_lt_total t s (i + 1) hs (by omega)
  simp only
  rw [Nat.succ_mul] at hlt ⊢
  omega

theorem calculateSegments_head (t s : Nat) (hs : 0 < s) (ht : 0 < t) :
    (calculateSegments t s).head?.map (fun p => p.start) = some 0 := by
  have hcount : 0 < segmentCount t s := by
    by_contra h
    have h0 : segmentCount t s = 0 := by omega
    have := total_le_count_mul t s hs
    rw [h0] at this
    omega
  have hlen : 0 < (calculateSegments t s).length := by
    rw [calculateSegments_length]; exact hcount
  rw [List.head?_eq_getElem?, List.getElem?_eq_getElem hlen,
    calculateSegments_getElem t s 0 hlen]
  simp

theorem calculateSegments_last (t s : Nat) (hs : 0 < s) (ht : 0 < t) :
    (calculateSegments t s).getLast?.map (fun p => p.endByte)
      = some (t - 1) := by
  have hcount : 0 < segmentCount t s := by
    by_contra h
    have h0 : segmentCount t s = 0 := by omega
    have := total_le_count_mul t s hs
    rw [h0] at this
    omega
  have hlen : (calculateSegments t s).length = segmentCount t s :=
    calculateSegments_length t s
  have hidx : (calculateSegments t s).length - 1
      < (calculateSegments t s).length := by omega
  rw [List.getLast?_eq_getElem?, List.getElem?_eq_getElem hidx,
    calculateSegments_getElem t s _ hidx]
  have htot := total_le_count_mul t s hs
  have hmul : (segmentCount t s - 1) * s + s = segmentCount t s * s := by
    have hn : segmentCount t s - 1 + 1 = segmentCount t s :=
      Nat.succ_pred_eq_of_pos hcount
    calc (segmentCount t s - 1) * s + s
        = ((segmentCount t s - 1) + 1) * s := (Nat.succ_mul _ _).symm
      _ = segmentCount t s * s := by rw [hn]
  simp only [Option.map_some']
  congr 1
  rw [hlen]
  omega

/-- A fully successful session: every planned segment of the extent is
present in `downloadedSegments` (keyed by its id, listed in arbitrary
completion order) and carries the bytes `f start` of its byte range. -/
def plannedDl (totalSize segmentSize : Nat) (f : Nat → List Nat) :
    List (String × DlSeg) :=
  (calculateSegments totalSize segmentSize).map fun p =>
    (p.id, { rangeStart := p.start, rangeEnd := p.endByte, size := p.size,
             data := f p.start })

/-- C1: for a fully successful session, the buffer `mergeSegments` hands to
`onComplete` is the concatenation of the segment buffers in ascending
`range.start` order, whatever order the segments completed in; its length is
the requested extent, and the planned ranges are contiguous (no gaps or
overlaps: consecutive starts continue at `end + 1`, starting at byte `0` and
ending at byte `totalSize - 1`). -/
theorem mergeSegments_ordered_concat (totalSize segmentSize : Nat)
    (hs : 0 < segmentSize) (f : Nat → List Nat) (dl : List (String × DlSeg))
    (hperm : dl.Perm (plannedDl totalSize segmentSize f))
    (hdata : ∀ p ∈ calculateSegments totalSize segmentSize,
      (f p.start).length = p.size) :
    mergeSegments dl
        = ((calculateSegments totalSize segmentSize).map
            (fun p => f p.start)).flatten
      ∧ (mergeSegments dl).length = totalSize
      ∧ (calculateSegments totalSize segmentSize).Chain'
          (fun a b => b.start = a.endByte + 1)
      ∧ (0 < totalSize →
          (calculateSegments totalSize segmentSize).head?.map
              (fun p => p.start) = some 0
            ∧ (calculateSegments totalSize segmentSize).getLast?.map
                (fun p => p.endByte) = some (totalSize - 1)) := by
  have hsorted_base : (plannedDl totalSize segmentSize f).Pairwise byStartLt := by
    unfold plannedDl
    exact List.Pairwise.map _ (fun _ _ h => h)
      (calculateSegments_pairwise totalSize segmentSize hs)
  have hsort : List.insertionSort byStart dl = plannedDl totalSize segmentSize f :=
    insertionSort_byStart_eq dl _ hperm hsorted_base
  have hlen : ∀ e ∈ plannedDl totalSize segmentSize f,
      e.2.data.length = e.2.size := by
    intro e he
    unfold plannedDl at he
    obtain ⟨p, hp, rfl⟩ := List.mem_map.mp he
    exact hdata p hp
  have hsum : ((plannedDl totalSize segmentSize f).map
      (fun e => e.2.size)).sum = totalSize := by
    unfold plannedDl
    rw [List.map_map]
    simpa [Function.comp] using sum_sizes totalSize segmentSize hs
  have hmerge : mergeSegments dl
      = ((plannedDl totalSize segmentSize f).map (fun e => e.2.data)).flatten := by
    simp only [mergeSegments, hsort]
    rw [foldl_writeBytes _ _ 0 hlen (by simp)]
    simp
  have hdatamap : (plannedDl totalSize segmentSize f).map (fun e => e.2.data)
      = (calculateSegments totalSize segmentSize).map (fun p => f p.start) := by
    unfold plannedDl
    rw [List.map_map]
    rfl
  refine ⟨by rw [hmerge, hdatamap], ?_, calculateSegments_chain _ _ hs,
    fun ht => ⟨calculateSegments_head _ _ hs ht,
      calculateSegments_last _ _ hs ht⟩⟩
  rw [hmerge, List.length_flatten, List.map_map]
  rw [show (List.length ∘ fun e : String × DlSeg => e.2.data)
        = fun e : String × DlSeg => e.2.data.length from rfl]
  rw [List.map_congr_left hlen]
  exact hsum

/-- `MultiThreadLoader.config` (the fields the scheduling logic reads;
`enableWorkers`, `timeout` and `preloadSegments` only affect how the network
request is carried out). -/
structure MTLConfig where
  maxConcurrentDownloads : Nat := 8
  segmentSize : Nat := 1024 * 1024
  retryAttempts : Nat := 3
  retryDelay : Nat := 1000
deriving DecidableEq, Repr

/-- A queued or active download task (JS `{id, url, range, retries, ...}`);
the url and the callbacks are fixed per session and not part of the state. -/
structure Task where
  id : String
  rangeStart : Nat
  rangeEnd : Nat
  retries : Nat
deriving DecidableEq, Repr

/-- `Map.prototype.set` on a list of id-keyed tasks: replace in place when
the key exists, append otherwise. -/
def mapSet (l : List Task) (t : Task) : List Task :=
  if l.any (fun u => u.id == t.id) then
    l.map (fun u => if u.id == t.id then t else u)
  else l ++ [t]

/-- `Map.prototype.set` on the `downloadedSegments` map. -/
def mapSetD (l : List (String × DlSeg)) (id : String) (v : DlSeg) :
    List (String × DlSeg) :=
  if l.any (fun u => u.1 == id) then
    l.map (fun u => if u.1 == id then (id, v) else u)
  else l ++ [(id, v)]

/-- Observable state of a `MultiThreadLoader`.  Callback invocations are
counted instead of executed (`progressEvents` counts `onProgress` via the
task's `onSuccess`, `errorEvents` the terminal per-segment `onError`,
`completeEvents` `onComplete`); `lastMerged` is the buffer most recently
passed to `onComplete` and `retryDelays` logs the delays of scheduled retry
timers.  The worker pool and the download-speed bookkeeping have no effect
on scheduling and are omitted. -/
structure LoaderState where
  isLoading : Bool := false
  downloadQueue : List Task := []
  activeDownloads : List Task := []
  downloadedSegments : List (String × DlSeg) := []
  downloadedBytes : Nat := 0
  totalRequests : Nat := 0
  successfulRequests : Nat := 0
  failedRequests : Nat := 0
  progressEvents : Nat := 0
  errorEvents : Nat := 0
  completeEvents : Nat := 0
  retryDelays : List Nat := []
  lastMerged : Option (List Nat) := none
deriving DecidableEq, Repr

/-- The `while` loop of `MultiThreadLoader.processDownloadQueue` fused with
the synchronous part of `startSegmentDownload`: shift tasks from the queue
into `activeDownloads` (each one counting a request) while a concurrency
slot is free. -/
def processQueueLoop (cfg : MTLConfig) :
    List Task → List Task → Nat → List Task × List Task × Nat
  | [], active, reqs => ([], active, reqs)
  | t :: rest, active, reqs =>
    if active.length < cfg.maxConcurrentDownloads then
      processQueueLoop cfg rest (mapSet active t) (reqs + 1)
    else (t :: rest, active, reqs)

/-- `MultiThreadLoader.processDownloadQueue` on the loader state. -/
def processDownloadQueue (cfg : MTLConfig) (s : LoaderState) : LoaderState :=
  let r := processQueueLoop cfg s.downloadQueue s.activeDownloads s.totalRequests
  { s with downloadQueue := r.1, activeDownloads := r.2.1,
           totalRequests := r.2.2 }

/-- A message posted back by a download worker (or the equivalent call made
by `downloadSegmentInMainThread`). -/
structure WorkerMsg where
  id : String
  success : Bool
  data : List Nat := []
  size : Nat := 0
  rangeStart : Nat := 0
  rangeEnd : Nat := 0
deriving DecidableEq, Repr

/-- `MultiThreadLoader.handleWorkerMessage`.  Returns the new state and,
when a retry is re-scheduled, the retried task — the
`setTimeout(..., retryDelay * retries)` callback delivered later as a
`retryDownload` event. -/
def handleWorkerMessage (cfg : MTLConfig) (s : LoaderState) (m : WorkerMsg) :
    LoaderState × Option Task :=
  match s.activeDownloads.find? (fun u => u.id == m.id) with
  | none => (s, none)
  | some download =>
    if m.success then
      let s1 := { s with
        downloadedSegments := mapSetD s.downloadedSegments m.id
          { rangeStart := m.rangeStart, rangeEnd := m.rangeEnd,
            size := m.size, data := m.data },
        downloadedBytes := s.downloadedBytes + m.size,
        successfulRequests := s.successfulRequests + 1,
        progressEvents := s.progressEvents + 1 }
      let s2 := { s1 with
        activeDownloads := s1.activeDownloads.filter
          (fun u => u.id != m.id) }
      (processDownloadQueue cfg s2, none)
    else
      if download.retries < cfg.retryAttempts then
        let t := { download with retries := download.retries + 1 }
        let s1 := { s with
          failedRequests := s.failedRequests + 1,
          retryDelays := s.retryDelays ++ [cfg.retryDelay * t.retries] }
        let s2 := { s1 with
          activeDownloads := s1.activeDownloads.filter
            (fun u => u.id != m.id) }
        (processDownloadQueue cfg s2, some t)
      else
        let s1 := { s with
          failedRequests := s.failedRequests + 1,
          errorEvents := s.errorEvents + 1 }
        let s2 := { s1 with
          activeDownloads := s1.activeDownloads.filter
            (fun u => u.id != m.id) }
        (processDownloadQueue cfg s2, none)

/-- `MultiThreadLoader.retryDownload` (the retry timer firing): unshift the
task back onto the queue and process the queue. -/
def retryDownload (cfg : MTLConfig) (s : LoaderState) (t : Task) :
    LoaderState :=
  processDownloadQueue cfg { s with downloadQueue := t :: s.downloadQueue }

/-- One `checkCompletion` tick of
`MultiThreadLoader.monitorDownloadCompletion`: when no task is active or
queued, mark loading finished, merge the downloaded segments and invoke
`onComplete`; otherwise the timer merely re-arms itself. -/
def monitorTick (s : LoaderState) : LoaderState :=
  if s.activeDownloads = [] ∧ s.downloadQueue = [] then
    { s with isLoading := false,
             completeEvents := s.completeEvents + 1,
             lastMerged := some (mergeSegments s.downloadedSegments) }
  else s

/-- `MultiThreadLoader.stopDownload`: stop loading, drop the queue and clear
the active set (the worker-pool teardown has no scheduling effect). -/
def stopDownload (s : LoaderState) : LoaderState :=
  { s with isLoading := false, downloadQueue := [], activeDownloads := [] }

/-- The synchronous scheduling part of `MultiThreadLoader.startDownload`
with a known `totalSize`: reset the per-session state, enqueue one task per
planned segment and start processing the queue (network traffic and the
completion monitor are separate events). -/
def startDownload (cfg : MTLConfig) (s : LoaderState) (totalSize : Nat) :
    LoaderState :=
  if s.isLoading then s
  else
    let s1 := { s with isLoading := true, downloadedBytes := 0,
                       downloadedSegments := [] }
    let tasks := (calculateSegments totalSize cfg.segmentSize).map fun p =>
      { id := p.id, rangeStart := p.start, rangeEnd := p.endByte,
        retries := 0 : Task }
    processDownloadQueue cfg { s1 with downloadQueue := s1.downloadQueue ++ tasks }

theorem mapSet_length_le (l : List Task) (t : Task) :
    (mapSet l t).length ≤ l.length + 1 := by
  unfold mapSet
  split
  · simp
  · simp

theorem processQueueLoop_active_le (cfg : MTLConfig) (q : List Task) :
    ∀ (active : List Task) (reqs : Nat),
      active.length ≤ cfg.maxConcurrentDownloads →
      (processQueueLoop cfg q active reqs).2.1.length
        ≤ cfg.maxConcurrentDownloads := by
  induction q with
  | nil =>
    intro active reqs h
    simpa [processQueueLoop] using h
  | cons t rest ih =>
    intro active reqs h
    simp only [processQueueLoop]
    split
    · next hlt =>
      exact ih _ _ (Nat.le_trans (mapSet_length_le active t) (by omega))
    · simpa using h

theorem processDownloadQueue_active_le (cfg : MTLConfig) (s : LoaderState)
    (h : s.activeDownloads.length ≤ cfg.maxConcurrentDownloads) :
    (processDownloadQueue cfg s).activeDownloads.length
      ≤ cfg.maxConcurrentDownloads := by
  unfold processDownloadQueue
  exact processQueueLoop_active_le cfg s.downloadQueue s.activeDownloads
    s.totalRequests h

/-- C6: every transition of the loader — queue processing, a worker result
(success, retried failure or terminal failure), a firing retry timer, a new
session start, cancellation, or a completion-monitor tick — keeps the number
of in-flight downloads at or below `maxConcurrentDownloads`. -/
theorem activeDownloads_bounded (cfg : MTLConfig) (s : LoaderState)
    (m : WorkerMsg) (t : Task) (total : Nat)
    (h : s.activeDownloads.length ≤ cfg.maxConcurrentDownloads) :
    (processDownloadQueue cfg s).activeDownloads.length
        ≤ cfg.maxConcurrentDownloads
      ∧ (handleWorkerMessage cfg s m).1.activeDownloads.length
        ≤ cfg.maxConcurrentDownloads
      ∧ (retryDownload cfg s t).activeDownloads.length
        ≤ cfg.maxConcurrentDownloads
      ∧ (startDownload cfg s total).activeDownloads.length
        ≤ cfg.maxConcurrentDownloads
      ∧ (stopDownload s).activeDownloads.length
        ≤ cfg.maxConcurrentDownloads
      ∧ (monitorTick s).activeDownloads.length
        ≤ cfg.maxConcurrentDownloads := by
  have hfilter : ∀ (l : List Task) (p : Task → Bool),
      l.length ≤ cfg.maxConcurrentDownloads →
      (l.filter p).length ≤ cfg.maxConcurrentDownloads :=
    fun l p hl => Nat.le_trans (List.length_filter_le p l) hl
  refine ⟨processDownloadQueue_active_le cfg s h, ?_, ?_, ?_, ?_, ?_⟩
  · unfold handleWorkerMessage
    cases hfind : s.activeDownloads.find? (fun u => u.id == m.id) with
    | none => simpa using h
    | some download =>
      simp only
      split
      · exact processDownloadQueue_active_le cfg _ (hfilter _ _ h)
      · split
        · exact processDownloadQueue_active_le cfg _ (hfilter _ _ h)
        · exact processDownloadQueue_active_le cfg _ (hfilter _ _ h)
  · exact processDownloadQueue_active_le cfg _ h
  · unfold startDownload
    split
    · exact h
    · exact processDownloadQueue_active_le cfg _ h
  · simp [stopDownload]
  · unfold monitorTick
    split
    · exact h
    · exact h

theorem self_mem_mapSet (l : List Task) (t : Task) : t ∈ mapSet l t := by
  unfold mapSet
  split
  · next hany =>
    obtain ⟨u, hu, hen⟩ := List.any_eq_true.mp hany
    exact List.mem_map.mpr ⟨u, hu, by simp [hen]⟩
  · exact List.mem_append_right l (List.mem_singleton.mpr rfl)

theorem mem_mapSet_of_ne (l : List Task) (t u : Task) (hu : u ∈ l)
    (hne : u.id ≠ t.id) : u ∈ mapSet l t := by
  unfold mapSet
  split
  · exact List.mem_map.mpr ⟨u, hu, by simp [hne]⟩
  · exact List.mem_append_left _ hu

theorem mem_of_mem_mapSet (l : List Task) (t u : Task)
    (h : u ∈ mapSet l t) : u ∈ l ∨ u = t := by
  unfold mapSet at h
  split at h
  · obtain ⟨v, hv, hveq⟩ := List.mem_map.mp h
    by_cases hid : (v.id == t.id) = true
    · right
      rw [if_pos hid] at hveq
      exact hveq.symm
    · left
      rw [if_neg hid] at hveq
      exact hveq ▸ hv
  · rcases List.mem_append.mp h with h | h
    · exact Or.inl h
    · exact Or.inr (List.mem_singleton.mp h)

/-- Processing the queue never drops a task: whatever was active or queued
(ids being distinct) is still active or queued afterwards. -/
theorem processQueueLoop_mem (cfg : MTLConfig) (q : List Task) :
    ∀ (active : List Task) (reqs : Nat) (u : Task),
      u ∈ active ++ q →
      (∀ x ∈ q, ∀ y ∈ active, x.id ≠ y.id) →
      q.Pairwise (fun a b => a.id ≠ b.id) →
      u ∈ (processQueueLoop cfg q active reqs).2.1
          ++ (processQueueLoop cfg q active reqs).1 := by
  induction q with
  | nil =>
    intro active reqs u hu _ _
    simpa [processQueueLoop] using hu
  | cons t rest ih =>
    intro active reqs u hu hdisj hpair
    simp only [processQueueLoop]
    split
    · next hlt =>
      have hdisj' : ∀ x ∈ rest, ∀ y ∈ mapSet active t, x.id ≠ y.id := by
        intro x hx y hy
        rcases mem_of_mem_mapSet active t y hy with hy' | rfl
        · exact hdisj x (List.mem_cons_of_mem t hx) y hy'
        · exact (List.rel_of_pairwise_cons hpair hx).symm
      have hpair' : rest.Pairwise (fun a b => a.id ≠ b.id) :=
        List.Pairwise.of_cons hpair
      refine ih (mapSet active t) (reqs + 1) u ?_ hdisj' hpair'
      rcases List.mem_append.mp hu with hu' | hu'
      · exact List.mem_append_left _
          (mem_mapSet_of_ne active t u hu'
            (fun h => hdisj t (List.mem_cons_self t rest) u hu' h.symm))
      · rcases List.mem_cons.mp hu' with rfl | hu''
        · exact List.mem_append_left _ (self_mem_mapSet active u)
        · exact List.mem_append_right _ hu''
    · simpa using hu

/-- A worker result for one task — in particular a terminal failure after
the retry budget is exhausted — removes only that task: every sibling task
remains active or queued. -/
theorem handleWorkerMessage_preserves_siblings (cfg : MTLConfig)
    (s : LoaderState) (m : WorkerMsg) (u : Task)
    (hu : u ∈ s.activeDownloads ++ s.downloadQueue)
    (hne : u.id ≠ m.id)
    (hdisj : ∀ x ∈ s.downloadQueue, ∀ y ∈ s.activeDownloads, x.id ≠ y.id)
    (hpair : s.downloadQueue.Pairwise (fun a b => a.id ≠ b.id)) :
    u ∈ (handleWorkerMessage cfg s m).1.activeDownloads
      ++ (handleWorkerMessage cfg s m).1.downloadQueue := by
  have hmain : ∀ (s2 : LoaderState),
      s2.activeDownloads = s.activeDownloads.filter (fun v => v.id != m.id) →
      s2.downloadQueue = s.downloadQueue →
      u ∈ (processDownloadQueue cfg s2).activeDownloads
        ++ (processDownloadQueue cfg s2).downloadQueue := by
    intro s2 ha hq
    have hu2 : u ∈ s2.activeDownloads ++ s2.downloadQueue := by
      rw [ha, hq]
      rcases List.mem_append.mp hu with hu' | hu'
      · exact List.mem_append_left _
          (List.mem_filter.mpr ⟨hu', by simpa using hne⟩)
      · exact List.mem_append_right _ hu'
    have hdisj2 : ∀ x ∈ s2.downloadQueue, ∀ y ∈ s2.activeDownloads,
        x.id ≠ y.id := by
      intro x hx y hy
      rw [hq] at hx
      rw [ha] at hy
      exact hdisj x hx y (List.mem_of_mem_filter hy)
    have hpair2 : s2.downloadQueue.Pairwise (fun a b => a.id ≠ b.id) := by
      rw [hq]; exact hpair
    unfold processDownloadQueue
    simpa using processQueueLoop_mem cfg s2.downloadQueue s2.activeDownloads
      s2.totalRequests u hu2 hdisj2 hpair2
  unfold handleWorkerMessage
  cases hfind : s.activeDownloads.find? (fun v => v.id == m.id) with
  | none => simpa using hu
  | some download =>
    simp only
    split
    · exact hmain _ rfl rfl
    · split
      · exact hmain _ rfl rfl
      · exact hmain _ rfl rfl

/-- Deliver a failing worker result for task `t` and, when a retry was
scheduled, let its timer fire (`retryDownload`). -/
def deliverFailure (cfg : MTLConfig) (s : LoaderState) (t : Task) :
    LoaderState :=
  match handleWorkerMessage cfg s
      { id := t.id, success := false, rangeStart := t.rangeStart,
        rangeEnd := t.rangeEnd } with
  | (s1, some t1) => retryDownload cfg s1 t1
  | (s1, none) => s1

/-- Drive a session in which every request attempt fails: repeatedly fail
whichever single task is in flight. -/
def runAllFail (cfg : MTLConfig) : LoaderState → Nat → LoaderState
  | s, 0 => s
  | s, fuel + 1 =>
    match s.activeDownloads with
    | [t] => runAllFail cfg (deliverFailure cfg s t) fuel
    | _ => s

/-- The loader state of a one-segment session after the task has failed `r`
times and its `r`-th retry timer has fired. -/
def midFail (cfg : MTLConfig) (total r : Nat) : LoaderState :=
  { isLoading := true,
    downloadQueue := [],
    activeDownloads := [{ id := "segment_0", rangeStart := 0,
                          rangeEnd := total - 1, retries := r }],
    downloadedSegments := [],
    downloadedBytes := 0,
    totalRequests := r + 1,
    successfulRequests := 0,
    failedRequests := r,
    progressEvents := 0,
    errorEvents := 0,
    completeEvents := 0,
    retryDelays := (List.range r).map (fun i => cfg.retryDelay * (i + 1)),
    lastMerged := none }

/-- The loader state of a one-segment session after the retry budget is
exhausted and the terminal error callback has fired. -/
def finalFail (cfg : MTLConfig) (total : Nat) : LoaderState :=
  { isLoading := true, downloadQueue := [], activeDownloads := [],
    downloadedSegments := [], downloadedBytes := 0,
    totalRequests := cfg.retryAttempts + 1, successfulRequests := 0,
    failedRequests := cfg.retryAttempts + 1, progressEvents := 0,
    errorEvents := 1, completeEvents := 0,
    retryDelays := (List.range cfg.retryAttempts).map
      (fun i => cfg.retryDelay * (i + 1)),
    lastMerged := none }

theorem calculateSegments_singleton (t s : Nat) (h1 : 0 < t) (h2 : t ≤ s) :
    calculateSegments t s
      = [{ id := "segment_0", start := 0, endByte := t - 1, size := t }] := by
  have hs : 0 < s := Nat.lt_of_lt_of_le h1 h2
  have hcount : (t + s - 1) / s = 1 := by
    rw [show t + s - 1 = (t - 1) + s by omega, Nat.add_div_right _ hs,
      Nat.div_eq_of_lt (by omega)]
  have hr1 : List.range 1 = [0] := rfl
  simp only [calculateSegments, hcount, hr1, List.map_cons,
    List.map_nil, Nat.zero_mul, Nat.zero_add]
  simp only [PlanSeg.mk.injEq, List.cons.injEq, and_true]
  refine ⟨by decide, trivial, by omega, by omega⟩

theorem startDownload_singleton (cfg : MTLConfig) (total : Nat)
    (hmax : 0 < cfg.maxConcurrentDownloads) (h1 : 0 < total)
    (h2 : total ≤ cfg.segmentSize) :
    startDownload cfg {} total = midFail cfg total 0 := by
  unfold startDownload
  rw [calculateSegments_singleton total cfg.segmentSize h1 h2]
  simp [processDownloadQueue, processQueueLoop, mapSet, hmax, midFail]

theorem deliverFailure_midFail (cfg : MTLConfig) (total r : Nat)
    (hmax : 0 < cfg.maxConcurrentDownloads) (hr : r < cfg.retryAttempts) :
    deliverFailure cfg (midFail cfg total r)
        { id := "segment_0", rangeStart := 0, rangeEnd := total - 1,
          retries := r }
      = midFail cfg total (r + 1) := by
  simp [deliverFailure, handleWorkerMessage, midFail, retryDownload,
    processDownloadQueue, processQueueLoop, mapSet, hr, hmax,
    List.range_succ]

theorem deliverFailure_midFail_terminal (cfg : MTLConfig) (total : Nat)
    (hmax : 0 < cfg.maxConcurrentDownloads) :
    deliverFailure cfg (midFail cfg total cfg.retryAttempts)
        { id := "segment_0", rangeStart := 0, rangeEnd := total - 1,
          retries := cfg.retryAttempts }
      = finalFail cfg total := by
  simp [deliverFailure, handleWorkerMessage, midFail, finalFail,
    processDownloadQueue, processQueueLoop, lt_self_iff_false]

theorem runAllFail_midFail_step (cfg : MTLConfig) (total r k : Nat) :
    runAllFail cfg (midFail cfg total r) (k + 1)
      = runAllFail cfg (deliverFailure cfg (midFail cfg total r)
          { id := "segment_0", rangeStart := 0, rangeEnd := total - 1,
            retries := r }) k := rfl

theorem runAllFail_midFail (cfg : MTLConfig) (total : Nat)
    (hmax : 0 < cfg.maxConcurrentDownloads) :
    ∀ k r, r + k = cfg.retryAttempts →
      runAllFail cfg (midFail cfg total r) (k + 1) = finalFail cfg total := by
  intro k
  induction k with
  | zero =>
    intro r hr
    have hreq : r = cfg.retryAttempts := by omega
    rw [runAllFail_midFail_step, hreq,
      deliverFailure_midFail_terminal cfg total hmax]
    rfl
  | succ k ih =>
    intro r hr
    have hrlt : r < cfg.retryAttempts := by omega
    rw [show k + 1 + 1 = (k + 1) + 1 from rfl, runAllFail_midFail_step,
      deliverFailure_midFail cfg total r hmax hrlt]
    exact ih (r + 1) (by omega)

theorem runAllFail_finalFail (cfg : MTLConfig) (total : Nat) :
    ∀ extra, runAllFail cfg (finalFail cfg total) extra
      = finalFail cfg total := by
  intro extra
  cases extra with
  | zero => rfl
  | succ n => rfl

/-- C5: a session whose every request attempt fails issues exactly
`retryAttempts + 1` requests for the segment and fires its terminal error
callback exactly once — and never again, however long the trace continues;
the `i`-th retry is re-enqueued after a delay of `retryDelay * i`; and a
worker result (in particular a terminal failure) removes only its own task,
leaving every sibling task active or queued. -/
theorem retry_ceiling_and_backoff (cfg : MTLConfig) (total : Nat)
    (hmax : 0 < cfg.maxConcurrentDownloads) (h1 : 0 < total)
    (h2 : total ≤ cfg.segmentSize) :
    runAllFail cfg (startDownload cfg {} total) (cfg.retryAttempts + 1)
        = finalFail cfg total
      ∧ (finalFail cfg total).totalRequests = cfg.retryAttempts + 1
      ∧ (finalFail cfg total).errorEvents = 1
      ∧ (finalFail cfg total).retryDelays
          = (List.range cfg.retryAttempts).map
              (fun i => cfg.retryDelay * (i + 1))
      ∧ (∀ extra, runAllFail cfg (finalFail cfg total) extra
          = finalFail cfg total)
      ∧ (∀ (s : LoaderState) (m : WorkerMsg) (u : Task),
          u ∈ s.activeDownloads ++ s.downloadQueue → u.id ≠ m.id →
          (∀ x ∈ s.downloadQueue, ∀ y ∈ s.activeDownloads, x.id ≠ y.id) →
          s.downloadQueue.Pairwise (fun a b => a.id ≠ b.id) →
          u ∈ (handleWorkerMessage cfg s m).1.activeDownloads
            ++ (handleWorkerMessage cfg s m).1.downloadQueue) := by
  refine ⟨?_, rfl, rfl, rfl, runAllFail_finalFail cfg total,
    fun s m u hu hne hdisj hpair =>
      handleWorkerMessage_preserves_siblings cfg s m u hu hne hdisj hpair⟩
  rw [startDownload_singleton cfg total hmax h1 h2]
  exact runAllFail_midFail cfg total hmax cfg.retryAttempts 0 (by omega)

/-- Witness for `retry_ceiling_and_backoff` at the default configuration
(three retries) and a one-byte extent. -/
theorem retry_ceiling_and_backoff_witness :
    (finalFail {} 1).totalRequests = 4
      ∧ (finalFail {} 1).errorEvents = 1
      ∧ runAllFail {} (startDownload {} {} 1) 4 = finalFail {} 1 :=
  ⟨(retry_ceiling_and_backoff {} 1 (by decide) (by decide) (by decide)).2.1,
   (retry_ceiling_and_backoff {} 1 (by decide) (by decide) (by decide)).2.2.1,
   (retry_ceiling_and_backoff {} 1 (by decide) (by decide) (by decide)).1⟩

/-- C10: whenever queue and active set have drained — no matter how many
requests failed terminally — the completion monitor invokes `onComplete`
exactly as in a fully successful session, passing the merge of only the
successfully downloaded segments in ascending offset order; the merged
length is the sum of their sizes, strictly shorter than any larger requested
extent, so the callback alone cannot distinguish the two outcomes. -/
theorem monitor_completion_after_failures (s : LoaderState)
    (base : List (String × DlSeg))
    (hact : s.activeDownloads = []) (hq : s.downloadQueue = [])
    (hperm : s.downloadedSegments.Perm base)
    (hsorted : base.Pairwise byStartLt)
    (hlen : ∀ e ∈ base, e.2.data.length = e.2.size) :
    (monitorTick s).completeEvents = s.completeEvents + 1
      ∧ (monitorTick s).lastMerged
          = some ((base.map (fun e => e.2.data)).flatten)
      ∧ ((base.map (fun e => e.2.data)).flatten).length
          = (base.map (fun e => e.2.size)).sum
      ∧ (∀ total, (base.map (fun e => e.2.size)).sum < total →
          ((base.map (fun e => e.2.data)).flatten).length < total) := by
  have hcond : s.activeDownloads = [] ∧ s.downloadQueue = [] := ⟨hact, hq⟩
  have hmerge : mergeSegments s.downloadedSegments
      = (base.map (fun e => e.2.data)).flatten := by
    unfold mergeSegments
    rw [insertionSort_byStart_eq _ _ hperm hsorted]
    rw [foldl_writeBytes base _ 0 hlen (by simp)]
    simp
  have hflatlen : ((base.map (fun e => e.2.data)).flatten).length
      = (base.map (fun e => e.2.size)).sum := by
    rw [List.length_flatten, List.map_map]
    rw [show (List.length ∘ fun e : String × DlSeg => e.2.data)
          = fun e : String × DlSeg => e.2.data.length from rfl]
    rw [List.map_congr_left hlen]
  refine ⟨?_, ?_, hflatlen, fun total h => by omega⟩
  · unfold monitorTick
    rw [if_pos hcond]
  · unfold monitorTick
    rw [if_pos hcond]
    simp [hmerge]

/-- Witness for `monitor_completion_after_failures`: an 8-byte extent whose
middle segment `[3,5]` failed permanently; the two surviving segments were
stored out of order and merge to 5 bytes. -/
theorem monitor_completion_after_failures_witness :
    (monitorTick
        { activeDownloads := [], downloadQueue := [],
          downloadedSegments :=
            [("segment_2", { rangeStart := 6, rangeEnd := 7, size := 2,
                             data := [9, 9] }),
             ("segment_0", { rangeStart := 0, rangeEnd := 2, size := 3,
                             data := [7, 7, 7] })],
          errorEvents := 1, failedRequests := 4 }).completeEvents = 0 + 1
      ∧ (monitorTick
          { activeDownloads := [], downloadQueue := [],
            downloadedSegments :=
              [("segment_2", { rangeStart := 6, rangeEnd := 7, size := 2,
                               data := [9, 9] }),
               ("segment_0", { rangeStart := 0, rangeEnd := 2, size := 3,
                               data := [7, 7, 7] })],
            errorEvents := 1, failedRequests := 4 }).lastMerged
        = some [7, 7, 7, 9, 9] := by
  have h := monitor_completion_after_failures
    { activeDownloads := [], downloadQueue := [],
      downloadedSegments :=
        [("segment_2", { rangeStart := 6, rangeEnd := 7, size := 2,
                         data := [9, 9] }),
         ("segment_0", { rangeStart := 0, rangeEnd := 2, size := 3,
                         data := [7, 7, 7] })],
      errorEvents := 1, failedRequests := 4 }
    [("segment_0", { rangeStart := 0, rangeEnd := 2, size := 3,
                     data := [7, 7, 7] }),
     ("segment_2", { rangeStart := 6, rangeEnd := 7, size := 2,
                     data := [9, 9] })]
    rfl rfl (by decide) (by decide) (by decide)
  exact ⟨h.1, h.2.1⟩

/-- C3 counterexample: on a one-segment session cancelled mid-download,
the pending completion-monitor tick still fires `onComplete` (the claim says
no callback fires after cancellation), and a pending retry timer still
issues a new range request afterwards. -/
theorem stopDownload_callback_after_cancel :
    (monitorTick (stopDownload (startDownload {} {} 1))).completeEvents = 1
      ∧ (stopDownload (startDownload {} {} 1)).completeEvents = 0
      ∧ (retryDownload {} (stopDownload (startDownload {} {} 1))
            { id := "segment_0", rangeStart := 0, rangeEnd := 0,
              retries := 1 }).totalRequests
          = (stopDownload (startDownload {} {} 1)).totalRequests + 1 := by
  decide

/-- C3 (amended): `stopDownload` empties the queue and the active set, stops
the session, is idempotent (a second call changes nothing and resurrects no
queued task), and in-flight results arriving afterwards are discarded — not
cached, no progress or error callback, no new request; however a pending
completion-monitor tick after cancellation still invokes `onComplete`, with
the merge of the segments downloaded before cancellation. -/
theorem stopDownload_behaviour (cfg : MTLConfig) (s : LoaderState)
    (m : WorkerMsg) :
    (stopDownload s).downloadQueue = []
      ∧ (stopDownload s).activeDownloads = []
      ∧ (stopDownload s).isLoading = false
      ∧ stopDownload (stopDownload s) = stopDownload s
      ∧ handleWorkerMessage cfg (stopDownload s) m = (stopDownload s, none)
      ∧ (monitorTick (stopDownload s)).completeEvents
          = (stopDownload s).completeEvents + 1
      ∧ (monitorTick (stopDownload s)).lastMerged
          = some (mergeSegments (stopDownload s).downloadedSegments) := by
  refine ⟨rfl, rfl, rfl, rfl, ?_, ?_, ?_⟩
  · simp [handleWorkerMessage, stopDownload]
  · unfold monitorTick
    rw [if_pos ⟨rfl, rfl⟩]
  · unfold monitorTick
    rw [if_pos ⟨rfl, rfl⟩]

/-- Witness for `mergeSegments_ordered_concat`: a 3-byte extent split at
2-byte granularity, with the two segments completing in reverse order. -/
theorem mergeSegments_ordered_concat_witness :
    mergeSegments
        [("segment_1", { rangeStart := 2, rangeEnd := 2, size := 1,
                         data := [12] }),
         ("segment_0", { rangeStart := 0, rangeEnd := 1, size := 2,
                         data := [10, 11] })]
      = ((calculateSegments 3 2).map
          (fun p => if p.start = 0 then [10, 11] else [12])).flatten
    ∧ (mergeSegments
        [("segment_1", { rangeStart := 2, rangeEnd := 2, size := 1,
                         data := [12] }),
         ("segment_0", { rangeStart := 0, rangeEnd := 1, size := 2,
                         data := [10, 11] })]).length = 3 := by
  have h := mergeSegments_ordered_concat 3 2 (by decide)
    (fun n => if n = 0 then [10, 11] else [12])
    [("segment_1", { rangeStart := 2, rangeEnd := 2, size := 1,
                     data := [12] }),
     ("segment_0", { rangeStart := 0, rangeEnd := 1, size := 2,
                     data := [10, 11] })]
    (by decide) (by decide)
  exact ⟨h.1, h.2.1⟩

/-- Witness for `activeDownloads_bounded` at the default configuration and
the pristine loader state. -/
theorem activeDownloads_bounded_witness :
    (handleWorkerMessage {} {}
        { id := "segment_0", success := false }).1.activeDownloads.length
        ≤ ({} : MTLConfig).maxConcurrentDownloads
      ∧ (stopDownload {}).activeDownloads.length
        ≤ ({} : MTLConfig).maxConcurrentDownloads := by
  have h := activeDownloads_bounded {} {} { id := "segment_0", success := false }
    { id := "segment_0", rangeStart := 0, rangeEnd := 0, retries := 0 } 0
    (by decide)
  exact ⟨h.2.1, h.2.2.2.2.1⟩

/-- The two media streams of `MediaPreloader` (`'video'` / `'audio'`). -/
inductive StreamType
  | video
  | audio
deriving DecidableEq, Repr

/-- Per-stream fields of `MediaPreloader.config` read by the cache and
preload logic (the `segments` map itself lives in the mutable state here). -/
structure StreamConfig where
  enabled : Bool := true
  preloadDuration : ℚ
  maxCacheSize : Nat
deriving DecidableEq, Repr

/-- `MediaPreloader.config` defaults: video preloads 5 s ahead with a
50 MiB cap, audio 60 s ahead with a 10 MiB cap. -/
def defaultPreloaderConfig : StreamType → StreamConfig
  | .video => { preloadDuration := 5, maxCacheSize := 50 * 1024 * 1024 }
  | .audio => { preloadDuration := 60, maxCacheSize := 10 * 1024 * 1024 }

/-- A cached segment entry (`{data, size, timestamp}`); the buffer itself is
irrelevant to cache management and is represented by its byte length. -/
structure CachedSeg where
  size : Nat
  timestamp : Nat
deriving DecidableEq, Repr

/-- Mutable state of a `MediaPreloader`: the two per-stream segment maps
(keyed by the 2-second-quantized time), the global `isPreloading`
single-flight flag and the current playback times. -/
structure PreloaderState where
  videoSegments : List (Int × CachedSeg) := []
  audioSegments : List (Int × CachedSeg) := []
  isPreloading : Bool := false
  currentVideoTime : ℚ := 0
  currentAudioTime : ℚ := 0
deriving DecidableEq, Repr

def segmentsOf (s : PreloaderState) : StreamType → List (Int × CachedSeg)
  | .video => s.videoSegments
  | .audio => s.audioSegments

def setSegments (s : PreloaderState) :
    StreamType → List (Int × CachedSeg) → PreloaderState
  | .video, l => { s with videoSegments := l }
  | .audio, l => { s with audioSegments := l }

def currentTimeOf (s : PreloaderState) : StreamType → ℚ
  | .video => s.currentVideoTime
  | .audio => s.currentAudioTime

/-- `Math.floor(time / 2) * 2`, the 2-second cache key of `cacheSegment`,
`isSegmentCached` and `calculateByteRange`. -/
def segmentKey (time : ℚ) : Int :=
  ⌊time / 2⌋ * 2

/-- `Map.prototype.set` on the key-ordered segment list. -/
def mapSetSeg (l : List (Int × CachedSeg)) (k : Int) (v : CachedSeg) :
    List (Int × CachedSeg) :=
  if l.any (fun e => e.1 == k) then
    l.map (fun e => if e.1 == k then (k, v) else e)
  else l ++ [(k, v)]

/-- Total cached bytes of a stream (the summation loop of `cacheSegment`
and `getStats`). -/
def totalCacheSize (l : List (Int × CachedSeg)) : Nat :=
  (l.map (fun e => e.2.size)).sum

/-- `MediaPreloader.cleanupCache`: delete the segments whose key lies more
than 300 seconds behind the stream's current playback time.  No size-based
eviction happens here. -/
def cleanupCache (s : PreloaderState) (t : StreamType) : PreloaderState :=
  setSegments s t ((segmentsOf s t).filter
    (fun e => !decide ((e.1 : ℚ) < currentTimeOf s t - 300)))

/-- `MediaPreloader.cacheSegment`: store the buffer under the quantized
key, then, if the stream's total now exceeds `maxCacheSize`, run
`cleanupCache` once. -/
def cacheSegment (cfg : StreamType → StreamConfig) (s : PreloaderState)
    (t : StreamType) (time : ℚ) (size now : Nat) : PreloaderState :=
  let segs := mapSetSeg (segmentsOf s t) (segmentKey time)
    { size := size, timestamp := now }
  let s1 := setSegments s t segs
  if (cfg t).maxCacheSize < totalCacheSize segs then cleanupCache s1 t
  else s1

/-- `MediaPreloader.isSegmentCached`. -/
def isSegmentCached (s : PreloaderState) (t : StreamType) (time : ℚ) :
    Bool :=
  (segmentsOf s t).any (fun e => e.1 == segmentKey time)

/-- The synchronous prefix of `MediaPreloader.preloadSegment`: the global
single-flight guard.  Returns the new state and whether a fetch session was
started; the fetch completes later (`preloadComplete`). -/
def preloadSegment (s : PreloaderState) : PreloaderState × Bool :=
  if s.isPreloading then (s, false)
  else ({ s with isPreloading := true }, true)

/-- Completion of a preload fetch (the loader's `onComplete` or the 206
single-thread path, followed by the `finally` block): cache the received
bytes and clear the single-flight flag. -/
def preloadComplete (cfg : StreamType → StreamConfig) (s : PreloaderState)
    (t : StreamType) (targetTime : ℚ) (size now : Nat) : PreloaderState :=
  { cacheSegment cfg s t targetTime size now with isPreloading := false }

/-- `MediaPreloader.checkPreload`: on a `timeupdate` of stream `t`, when
the quantized window at `currentTime + preloadDuration` is not cached,
start a preload fetch (single-flight); afterwards clean up the stream's
cache. -/
def checkPreload (cfg : StreamType → StreamConfig) (s : PreloaderState)
    (t : StreamType) : PreloaderState × Bool :=
  if (cfg t).enabled = false then (s, false)
  else
    let preloadTime := currentTimeOf s t + (cfg t).preloadDuration
    let r :=
      if isSegmentCached s t preloadTime then (s, false)
      else preloadSegment s
    (cleanupCache r.1 t, r.2)

theorem cleanupCache_isPreloading (s : PreloaderState) (t : StreamType) :
    (cleanupCache s t).isPreloading = s.isPreloading := by
  cases t <;> rfl

/-- While any preload fetch is in flight, a preload check for either stream
starts no new fetch. -/
theorem checkPreload_noFetch_of_inflight (cfg : StreamType → StreamConfig)
    (s : PreloaderState) (u : StreamType) (h : s.isPreloading = true) :
    (checkPreload cfg s u).2 = false := by
  by_cases he : (cfg u).enabled = false
  · simp [checkPreload, he]
  · by_cases hc : isSegmentCached s u
        (currentTimeOf s u + (cfg u).preloadDuration) = true
    · simp [checkPreload, he, hc]
    · simp [checkPreload, preloadSegment, he, hc, h]

/-- C4 counterexample: starting from an idle preloader, an audio preload
check starts a fetch; a video preload check issued while that audio fetch is
still in flight starts none, although no fetch for the video stream is in
flight and the video target window is uncached — the single-flight flag is
global, not per stream, so one stream's fetch gates the other. -/
theorem preload_not_per_stream :
    (checkPreload defaultPreloaderConfig {} .audio).2 = true
      ∧ (checkPreload defaultPreloaderConfig
          (checkPreload defaultPreloaderConfig {} .audio).1 .video).2
        = false
      ∧ (segmentsOf (checkPreload defaultPreloaderConfig {} .audio).1
          .video) = [] :=
  ⟨rfl, rfl, rfl⟩

/-- C4 (amended): the single-flight guard is global across both streams.
From an idle preloader, a position update whose quantized target window is
uncached starts exactly one fetch; while it is in flight, every further
preload check — for the same or the other stream — starts none, so two
checks in rapid succession yield exactly one active fetch session. -/
theorem preload_single_flight (cfg : StreamType → StreamConfig)
    (s : PreloaderState) (t : StreamType)
    (henabled : (cfg t).enabled = true)
    (huncached : isSegmentCached s t
      (currentTimeOf s t + (cfg t).preloadDuration) = false)
    (hidle : s.isPreloading = false) :
    (checkPreload cfg s t).2 = true
      ∧ (checkPreload cfg s t).1.isPreloading = true
      ∧ (∀ u, (checkPreload cfg (checkPreload cfg s t).1 u).2 = false)
      ∧ (∀ (s' : PreloaderState) (u : StreamType), s'.isPreloading = true →
          (checkPreload cfg s' u).2 = false) := by
  have hstep : checkPreload cfg s t
      = (cleanupCache { s with isPreloading := true } t, true) := by
    simp [checkPreload, preloadSegment, henabled, huncached, hidle]
  have hflag : (checkPreload cfg s t).1.isPreloading = true := by
    rw [hstep]
    simp [cleanupCache_isPreloading]
  refine ⟨by rw [hstep], hflag,
    fun u => checkPreload_noFetch_of_inflight cfg _ u hflag,
    fun s' u h => checkPreload_noFetch_of_inflight cfg s' u h⟩

/-- Witness for `preload_single_flight`: the default configuration, the
pristine preloader and the video stream. -/
theorem preload_single_flight_witness :
    (checkPreload defaultPreloaderConfig {} .video).2 = true
      ∧ (checkPreload defaultPreloaderConfig {} .video).1.isPreloading
        = true :=
  have h := preload_single_flight defaultPreloaderConfig {} .video rfl rfl rfl
  ⟨h.1, h.2.1⟩

/-- A 20 MiB cache entry, used in the budget counterexample. -/
def seg20MiB (ts : Nat) : CachedSeg :=
  { size := 20 * 1024 * 1024, timestamp := ts }

/-- C2: the claimed budget invariant fails on the code.  `cleanupCache`
evicts only segments more than 300 s behind the playback cursor and never
evicts by size, so three 20 MiB insertions at playback position 0 (times
0 s, 2 s, 4 s) leave 60 MiB cached against the 50 MiB video budget — the
eviction `cacheSegment` triggers on overflow removes nothing. -/
theorem cache_budget_exceeded :
    totalCacheSize (segmentsOf
        (cacheSegment defaultPreloaderConfig
          (cacheSegment defaultPreloaderConfig
            (cacheSegment defaultPreloaderConfig {} .video 0
              (20 * 1024 * 1024) 0)
            .video 2 (20 * 1024 * 1024) 1)
          .video 4 (20 * 1024 * 1024) 2)
        .video)
      = 60 * 1024 * 1024
    ∧ (defaultPreloaderConfig .video).maxCacheSize = 50 * 1024 * 1024
    ∧ 50 * 1024 * 1024 < 60 * 1024 * 1024 := by
  have k0 : segmentKey 0 = 0 := by
    norm_num [segmentKey]
  have k2 : segmentKey 2 = 2 := by
    norm_num [segmentKey]
  have k4 : segmentKey 4 = 4 := by
    norm_num [segmentKey]
  have c0 : ¬(((0 : Int) : ℚ) < (0 : ℚ) - 300) := by norm_num
  have c2 : ¬(((2 : Int) : ℚ) < (0 : ℚ) - 300) := by norm_num
  have c4 : ¬(((4 : Int) : ℚ) < (0 : ℚ) - 300) := by norm_num
  have s1 : cacheSegment defaultPreloaderConfig {} .video 0
      (20 * 1024 * 1024) 0
      = { videoSegments := [((0 : Int), seg20MiB 0)] } := by
    simp [cacheSegment, mapSetSeg, segmentsOf, setSegments, totalCacheSize,
      defaultPreloaderConfig, seg20MiB, k0]
  have s2 : cacheSegment defaultPreloaderConfig
      ({ videoSegments := [((0 : Int), seg20MiB 0)] } : PreloaderState)
      .video 2 (20 * 1024 * 1024) 1
      = { videoSegments :=
            [((0 : Int), seg20MiB 0), ((2 : Int), seg20MiB 1)] } := by
    simp [cacheSegment, mapSetSeg, segmentsOf, setSegments, totalCacheSize,
      defaultPreloaderConfig, seg20MiB, k2]
  have s3 : cacheSegment defaultPreloaderConfig
      ({ videoSegments :=
           [((0 : Int), seg20MiB 0), ((2 : Int), seg20MiB 1)] }
        : PreloaderState) .video 4 (20 * 1024 * 1024) 2
      = { videoSegments :=
            [((0 : Int), seg20MiB 0), ((2 : Int), seg20MiB 1),
             ((4 : Int), seg20MiB 2)] } := by
    simp only [cacheSegment, mapSetSeg, segmentsOf, setSegments,
      totalCacheSize, defaultPreloaderConfig, seg20MiB, cleanupCache,
      currentTimeOf, k4]
    norm_num
  rw [s1, s2, s3]
  refine ⟨rfl, rfl, by norm_num⟩

/-- Observable state of the paired `video`/`audio` elements that the sync
logic in `player.js` reads and writes; `audio.play()` clears `audioPaused`. -/
structure AVState where
  videoTime : ℚ
  audioTime : ℚ
  videoPaused : Bool
  audioPaused : Bool
  videoSeeking : Bool
  audioSeeking : Bool
  videoRate : ℚ
  audioRate : ℚ
  videoVolume : ℚ
  audioVolume : ℚ
  videoMuted : Bool
  audioMuted : Bool
deriving DecidableEq, Repr

/-- The drift-correction half of `syncAudio`: when the positions differ by
more than 0.2 s, the video is playing and neither element is seeking, snap
the audio position to the video position and resume the audio if paused. -/
def driftCorrect (s : AVState) : AVState :=
  if |s.videoTime - s.audioTime| > 0.2 then
    if s.videoPaused = false ∧ s.audioSeeking = false
        ∧ s.videoSeeking = false then
      let s1 := { s with audioTime := s.videoTime }
      if s1.audioPaused then { s1 with audioPaused := false } else s1
    else s
  else s

/-- The rate/volume/mute mirroring half of `syncAudio` (each property is
written only when it differs). -/
def mirrorState (s : AVState) : AVState :=
  let s2 := if s.audioRate ≠ s.videoRate
    then { s with audioRate := s.videoRate } else s
  let s3 := if s2.audioVolume ≠ s2.videoVolume
    then { s2 with audioVolume := s2.videoVolume } else s2
  if s3.audioMuted ≠ s3.videoMuted
    then { s3 with audioMuted := s3.videoMuted } else s3

/-- `syncAudio` (the `timeupdate` tick handler): drift correction followed
by state mirroring. -/
def syncAudio (s : AVState) : AVState :=
  mirrorState (driftCorrect s)

theorem mirrorState_audio (s : AVState) :
    (mirrorState s).audioTime = s.audioTime
      ∧ (mirrorState s).audioPaused = s.audioPaused := by
  simp only [mirrorState]
  split
  · split
    · split
      · exact ⟨rfl, rfl⟩
      · exact ⟨rfl, rfl⟩
    · split
      · exact ⟨rfl, rfl⟩
      · exact ⟨rfl, rfl⟩
  · split
    · split
      · exact ⟨rfl, rfl⟩
      · exact ⟨rfl, rfl⟩
    · split
      · exact ⟨rfl, rfl⟩
      · exact ⟨rfl, rfl⟩

theorem driftCorrect_correct (s : AVState)
    (hd : |s.videoTime - s.audioTime| > 0.2) (hp : s.videoPaused = false)
    (has : s.audioSeeking = false) (hvs : s.videoSeeking = false) :
    (driftCorrect s).audioTime = s.videoTime
      ∧ (driftCorrect s).audioPaused = false := by
  unfold driftCorrect
  rw [if_pos hd, if_pos ⟨hp, has, hvs⟩]
  by_cases hap : s.audioPaused = true
  · simp only [hap]
    exact ⟨rfl, rfl⟩
  · have hap' : s.audioPaused = false := by
      cases h : s.audioPaused
      · rfl
      · exact absurd h hap
    simp [hap']

theorem driftCorrect_skip (s : AVState)
    (h : s.videoPaused = true ∨ s.audioSeeking = true
      ∨ s.videoSeeking = true) :
    (driftCorrect s).audioTime = s.audioTime
      ∧ (driftCorrect s).audioPaused = s.audioPaused := by
  unfold driftCorrect
  by_cases hd : |s.videoTime - s.audioTime| > 0.2
  · rw [if_pos hd, if_neg ?_]
    · exact ⟨rfl, rfl⟩
    · rintro ⟨h1, h2, h3⟩
      rcases h with h' | h' | h' <;> simp_all
  · rw [if_neg hd]
    exact ⟨rfl, rfl⟩

/-- C7: on a `syncAudio` tick, if the drift exceeds 0.2 s, the video is
playing and neither stream is mid-seek, the audio position is set to the
video position and the audio ends up playing (resumed if it was paused); no
drift correction is applied while the video is paused or either stream is
seeking; in particular a 0.5 s drift with the video playing is corrected in
one tick, leaving the audio unpaused. -/
theorem syncAudio_drift_correction (s : AVState) :
    ((|s.videoTime - s.audioTime| > 0.2) → s.videoPaused = false →
      s.audioSeeking = false → s.videoSeeking = false →
      (syncAudio s).audioTime = s.videoTime
        ∧ (syncAudio s).audioPaused = false)
    ∧ ((s.videoPaused = true ∨ s.audioSeeking = true
          ∨ s.videoSeeking = true) →
      (syncAudio s).audioTime = s.audioTime
        ∧ (syncAudio s).audioPaused = s.audioPaused)
    ∧ (s.videoTime - s.audioTime = 0.5 → s.videoPaused = false →
      s.audioSeeking = false → s.videoSeeking = false →
      (syncAudio s).audioTime = s.videoTime
        ∧ (syncAudio s).audioPaused = false) := by
  have hm := mirrorState_audio (driftCorrect s)
  refine ⟨fun hd hp has hvs => ?_, fun h => ?_, fun hdiff hp has hvs => ?_⟩
  · have h1 := driftCorrect_correct s hd hp has hvs
    exact ⟨by rw [syncAudio, hm.1, h1.1], by rw [syncAudio, hm.2, h1.2]⟩
  · have h1 := driftCorrect_skip s h
    exact ⟨by rw [syncAudio, hm.1, h1.1], by rw [syncAudio, hm.2, h1.2]⟩
  · have hd : |s.videoTime - s.audioTime| > 0.2 := by
      rw [hdiff, show |(0.5 : ℚ)| = 0.5 from abs_of_pos (by norm_num)]
      norm_num
    have h1 := driftCorrect_correct s hd hp has hvs
    exact ⟨by rw [syncAudio, hm.1, h1.1], by rw [syncAudio, hm.2, h1.2]⟩

/-- Witness for `syncAudio_drift_correction`: a 0.5 s drift, video playing
at 1.5 s, audio paused at 1 s — one tick snaps the audio to 1.5 s and
resumes it. -/
theorem syncAudio_drift_correction_witness :
    (syncAudio
        { videoTime := 1.5, audioTime := 1, videoPaused := false,
          audioPaused := true, videoSeeking := false, audioSeeking := false,
          videoRate := 1, audioRate := 1, videoVolume := 1, audioVolume := 1,
          videoMuted := false, audioMuted := false }).audioTime = 1.5
      ∧ (syncAudio
        { videoTime := 1.5, audioTime := 1, videoPaused := false,
          audioPaused := true, videoSeeking := false, audioSeeking := false,
          videoRate := 1, audioRate := 1, videoVolume := 1, audioVolume := 1,
          videoMuted := false, audioMuted := false }).audioPaused = false :=
  (syncAudio_drift_correction
    { videoTime := 1.5, audioTime := 1, videoPaused := false,
      audioPaused := true, videoSeeking := false, audioSeeking := false,
      videoRate := 1, audioRate := 1, videoVolume := 1, audioVolume := 1,
      videoMuted := false, audioMuted := false }).2.2
    (by norm_num) rfl rfl rfl

/-- A buffered time range of a media element. -/
structure BufferedRange where
  startTime : ℚ
  endTime : ℚ
deriving DecidableEq, Repr

/-- What `checkBuffering` reads from a media element, together with the
flags the specification expects it to write. -/
structure MediaEl where
  currentTime : ℚ
  paused : Bool
  seeking : Bool
  readyState : Nat
  buffered : List BufferedRange
deriving DecidableEq, Repr

/-- The buffering indicator (`loading.style.display`). -/
structure UIState where
  loadingDisplay : String
deriving DecidableEq, Repr

/-- `setLoading(show)`: show (`flex`) or hide (`none`) the indicator. -/
def setLoading (ui : UIState) (visible : Bool) : UIState :=
  { ui with loadingDisplay := if visible then "flex" else "none" }

/-- The buffered headroom `checkBuffering` computes:
`buffered.end(buffered.length - 1) - currentTime` when any range exists,
otherwise 0. -/
def bufferedTime (el : MediaEl) : ℚ :=
  match el.buffered.getLast? with
  | some r => r.endTime - el.currentTime
  | none => 0

/-- `checkBuffering` as the source defines it: it computes the two headroom
values and then does nothing — the entire pause/indicator gate is commented
out.  It returns the (unchanged) elements and indicator together with the
two computed values. -/
def checkBuffering (video audio : MediaEl) (ui : UIState) :
    (MediaEl × MediaEl × UIState) × ℚ × ℚ :=
  ((video, audio, ui), bufferedTime video, bufferedTime audio)

/-- C8 counterexample: a playing video with *zero* buffered headroom (below
any positive safely-playable threshold) goes through `checkBuffering`
without being paused and without the indicator being raised — the claimed
buffering gate does not exist in the code. -/
theorem buffering_gate_missing :
    (checkBuffering
        { currentTime := 10, paused := false, seeking := false,
          readyState := 1, buffered := [] }
        { currentTime := 10, paused := false, seeking := false,
          readyState := 1, buffered := [] }
        { loadingDisplay := "none" }).2.1 = 0
      ∧ ((checkBuffering
          { currentTime := 10, paused := false, seeking := false,
            readyState := 1, buffered := [] }
          { currentTime := 10, paused := false, seeking := false,
            readyState := 1, buffered := [] }
          { loadingDisplay := "none" }).1.1).paused = false
      ∧ ((checkBuffering
          { currentTime := 10, paused := false, seeking := false,
            readyState := 1, buffered := [] }
          { currentTime := 10, paused := false, seeking := false,
            readyState := 1, buffered := [] }
          { loadingDisplay := "none" }).1.2.2).loadingDisplay = "none" :=
  ⟨rfl, rfl, rfl⟩

/-- C8 (amended): `checkBuffering` computes the buffered headroom of both
streams but takes no action — it pauses neither element and never raises or
clears the indicator (the whole gate, including the indicator-clearing
branch, is commented out in the source); the `setLoading` helper, which
would toggle the indicator to `flex`/`none`, is never invoked by it. -/
theorem checkBuffering_no_action (video audio : MediaEl) (ui : UIState) :
    (checkBuffering video audio ui).1 = (video, audio, ui)
      ∧ (checkBuffering video audio ui).2
        = (bufferedTime video, bufferedTime audio)
      ∧ setLoading ui true = { ui with loadingDisplay := "flex" }
      ∧ setLoading ui false = { ui with loadingDisplay := "none" } :=
  ⟨rfl, rfl, rfl, rfl⟩

/-- A quality tier of `AdaptiveQuality.qualityLevels` (`{qn, name,
bitrate}`, bitrate in Mbps). -/
structure QLevel where
  qn : Nat
  name : String
  bitrate : ℚ
deriving DecidableEq, Repr

/-- The lowest tier, also the fallback of the speed recommendation. -/
def q360 : QLevel :=
  { qn := 16, name := "360P", bitrate := 0.5 }

/-- The eight-tier ladder of `adaptive-quality.js`. -/
def qualityLevels : List QLevel :=
  [q360,
   { qn := 32, name := "480P", bitrate := 1.2 },
   { qn := 64, name := "720P", bitrate := 2.5 },
   { qn := 74, name := "720P60", bitrate := 3.5 },
   { qn := 80, name := "1080P", bitrate := 5.0 },
   { qn := 112, name := "1080P+", bitrate := 7.5 },
   { qn := 116, name := "1080P60", bitrate := 10.0 },
   { qn := 120, name := "4K", bitrate := 20.0 }]

/-- `AdaptiveQuality.config`. -/
structure AQConfig where
  enabled : Bool := true
  adjustInterval : Nat := 5000
  stallThreshold : Nat := 3
  bufferThreshold : ℚ := 10
deriving DecidableEq, Repr

/-- The 10 000 ms `setTimeout` in `adjustQuality`'s `finally` block that
re-enables automatic adjustment (the cool-down duration). -/
def cooldownMs : Nat := 10000

/-- Why a quality change was accepted (the reason strings, abstracted). -/
inductive AQReason
  | stall (count : Nat)
  | speedMatch
  | bufferUp
deriving DecidableEq, Repr

/-- An `adjustHistory` record (`{timestamp, from, to, reason}`; the wall
clock is irrelevant). -/
structure AQRecord where
  fromQn : Nat
  toQn : Nat
  reason : AQReason
deriving DecidableEq, Repr

/-- `AdaptiveQuality.state` (after `start()` has set a current quality).
`acceptedChanges` counts invocations of the quality-change callback. -/
structure AQState where
  currentQuality : Nat
  stallCount : Nat := 0
  avgNetworkSpeed : ℚ := 0
  bufferHealth : ℚ := 0
  isAdjusting : Bool := false
  adjustHistory : List AQRecord := []
  acceptedChanges : Nat := 0
deriving DecidableEq, Repr

/-- JS `Array.prototype.findIndex` (−1 when absent). -/
def findIndexJS (p : QLevel → Bool) (l : List QLevel) : Int :=
  match l.findIdx? p with
  | some i => (i : Int)
  | none => -1

/-- `AdaptiveQuality.getLowerQuality`. -/
def getLowerQuality (currentQn : Nat) : Option QLevel :=
  let currentIndex := findIndexJS (fun q => q.qn == currentQn) qualityLevels
  if 0 < currentIndex then qualityLevels[(currentIndex - 1).toNat]?
  else none

/-- `AdaptiveQuality.getHigherQuality`. -/
def getHigherQuality (currentQn : Nat) : Option QLevel :=
  let currentIndex := findIndexJS (fun q => q.qn == currentQn) qualityLevels
  if currentIndex < (qualityLevels.length : Int) - 1 then
    qualityLevels[(currentIndex + 1).toNat]?
  else none

/-- `AdaptiveQuality.getRecommendedQualityBySpeed`: divide the observed
speed by the 1.2 safety margin and pick the highest tier whose bitrate fits,
falling back to the lowest tier; `null` when no positive speed sample. -/
def getRecommendedQualityBySpeed (speed : ℚ) : Option QLevel :=
  if speed ≤ 0 then none
  else
    let effectiveSpeed := speed / 1.2
    some ((qualityLevels.reverse.find?
      (fun q => q.bitrate ≤ effectiveSpeed)).getD q360)

/-- `AdaptiveQuality.makeQualityDecision`: stall-driven downgrade first,
then throughput match, then buffer-driven upgrade; at most one decision. -/
def makeQualityDecision (cfg : AQConfig) (s : AQState) :
    Option (Nat × AQReason) :=
  let d3 : Option (Nat × AQReason) :=
    if cfg.bufferThreshold < s.bufferHealth ∧ s.stallCount = 0 then
      match getHigherQuality s.currentQuality with
      | some hq =>
        if hq.bitrate ≤ s.avgNetworkSpeed then some (hq.qn, .bufferUp)
        else none
      | none => none
    else none
  let d2 : Option (Nat × AQReason) :=
    match getRecommendedQualityBySpeed s.avgNetworkSpeed with
    | some rq =>
      if rq.qn ≠ s.currentQuality then some (rq.qn, .speedMatch) else d3
    | none => d3
  if cfg.stallThreshold ≤ s.stallCount then
    match getLowerQuality s.currentQuality with
    | some lq => some (lq.qn, .stall s.stallCount)
    | none => d2
  else d2

/-- `AdaptiveQuality.adjustQuality`: guarded by `isAdjusting`; append the
record to a 10-entry history, invoke the quality-change callback, set the
new tier, reset the stall counter, and leave `isAdjusting` set until the
10-second timer (`cooldownExpire`) clears it. -/
def adjustQuality (s : AQState) (targetQuality : Nat) (reason : AQReason) :
    AQState :=
  if s.isAdjusting then s
  else
    let hist := s.adjustHistory ++
      [{ fromQn := s.currentQuality, toQn := targetQuality,
         reason := reason }]
    let hist2 := if 10 < hist.length then hist.drop 1 else hist
    { s with
      isAdjusting := true, adjustHistory := hist2,
      currentQuality := targetQuality, stallCount := 0,
      acceptedChanges := s.acceptedChanges + 1 }

/-- `AdaptiveQuality.checkAndAdjustQuality` (one evaluation cycle). -/
def checkAndAdjustQuality (cfg : AQConfig) (s : AQState) : AQState :=
  if cfg.enabled = false ∨ s.isAdjusting = true then s
  else
    match makeQualityDecision cfg s with
    | some (target, reason) => adjustQuality s target reason
    | none => s

/-- The cool-down timer firing 10 s after an accepted change. -/
def cooldownExpire (s : AQState) : AQState :=
  { s with isAdjusting := false }

/-- C9: after an accepted change, the `isAdjusting` cool-down — cleared only
by the 10 000 ms timer — suppresses every further automatic change: a second
evaluation arriving before the timer fires changes nothing, so two triggers
in rapid succession produce exactly one accepted change; each evaluation
cycle accepts at most one change; stall-driven downgrade takes priority over
the throughput match, which takes priority over the buffer upgrade. -/
theorem quality_cooldown_and_priority (cfg : AQConfig) (s : AQState) :
    (s.isAdjusting = true → checkAndAdjustQuality cfg s = s)
    ∧ (checkAndAdjustQuality cfg s).acceptedChanges ≤ s.acceptedChanges + 1
    ∧ (cfg.enabled = true → s.isAdjusting = false →
        ∀ d, makeQualityDecision cfg s = some d →
          (checkAndAdjustQuality cfg s).acceptedChanges
              = s.acceptedChanges + 1
            ∧ (checkAndAdjustQuality cfg s).isAdjusting = true
            ∧ checkAndAdjustQuality cfg (checkAndAdjustQuality cfg s)
              = checkAndAdjustQuality cfg s)
    ∧ (∀ lq, cfg.stallThreshold ≤ s.stallCount →
        getLowerQuality s.currentQuality = some lq →
        makeQualityDecision cfg s = some (lq.qn, .stall s.stallCount))
    ∧ (∀ rq, s.stallCount < cfg.stallThreshold →
        getRecommendedQualityBySpeed s.avgNetworkSpeed = some rq →
        rq.qn ≠ s.currentQuality →
        makeQualityDecision cfg s = some (rq.qn, .speedMatch))
    ∧ cooldownMs = 10000 := by
  refine ⟨?_, ?_, ?_, ?_, ?_, rfl⟩
  · intro h
    unfold checkAndAdjustQuality
    rw [if_pos (Or.inr h)]
  · unfold checkAndAdjustQuality
    split
    · omega
    · split
      · unfold adjustQuality
        split
        · omega
        · simp
      · omega
  · intro he hi d hd
    have hguard : ¬(cfg.enabled = false ∨ s.isAdjusting = true) := by
      rintro (h | h) <;> simp_all
    have hstep : checkAndAdjustQuality cfg s = adjustQuality s d.1 d.2 := by
      unfold checkAndAdjustQuality
      rw [if_neg hguard, hd]
    have hacc : (adjustQuality s d.1 d.2).acceptedChanges
        = s.acceptedChanges + 1 := by
      unfold adjustQuality
      rw [if_neg (by simp [hi])]
    have hflag0 : (adjustQuality s d.1 d.2).isAdjusting = true := by
      unfold adjustQuality
      rw [if_neg (by simp [hi])]
    have hflag : (checkAndAdjustQuality cfg s).isAdjusting = true := by
      rw [hstep]; exact hflag0
    refine ⟨by rw [hstep]; exact hacc, hflag, ?_⟩
    conv_lhs => rw [checkAndAdjustQuality]
    rw [if_pos (Or.inr hflag)]
  · intro lq hstall hlq
    unfold makeQualityDecision
    rw [if_pos hstall, hlq]
  · intro rq hstall hrq hne
    unfold makeQualityDecision
    rw [if_neg (by omega), hrq]
    simp [hne]

/-- Witness for `quality_cooldown_and_priority`: three stalls at tier 80
trigger a single stall-downgrade to tier 74 and the second evaluation in a
row is a no-op. -/
theorem quality_cooldown_and_priority_witness :
    makeQualityDecision {}
        { currentQuality := 80, stallCount := 3, avgNetworkSpeed := 100 }
      = some (74, .stall 3)
    ∧ (checkAndAdjustQuality {}
        { currentQuality := 80, stallCount := 3,
          avgNetworkSpeed := 100 }).acceptedChanges = 1
    ∧ checkAndAdjustQuality {}
        (checkAndAdjustQuality {}
          { currentQuality := 80, stallCount := 3, avgNetworkSpeed := 100 })
      = checkAndAdjustQuality {}
        { currentQuality := 80, stallCount := 3, avgNetworkSpeed := 100 } := by
  have h := quality_cooldown_and_priority {}
    { currentQuality := 80, stallCount := 3, avgNetworkSpeed := 100 }
  have h4 := h.2.2.2.1 { qn := 74, name := "720P60", bitrate := 3.5 }
    (by decide) rfl
  have h3 := h.2.2.1 rfl rfl (74, .stall 3) h4
  exact ⟨h4, h3.1, h3.2.2⟩

end BiliPlayer
